import Mathlib

/-!
Verification development for the `agency` repository: a shallow embedding of
the agent tool-calling loop (`agency/agent.py`), the agency router with
per-seat mailboxes (`agency/agency.py`), and the tool-descriptor derivation
(`agency/tool.py`), together with theorems settling the specification claims.

Modelling conventions:
* The generative backend is scripted as a finite list of assistant replies;
  running out of scripted replies is reported as a distinguished
  `backendExhausted` outcome (a backend fault, distinguishable from the
  loop's own behaviour).
* Python exceptions are modelled with `Except`: `json.loads` is modelled as a
  function returning `Option` (`none` = raises), a tool callable returns
  `Except String String` (`.error` = the callable raises).
* Python object identity of agents within one agency is modelled by agent id
  equality (ids are unique within an agency).
-/

namespace Agency

/-- One tool invocation requested by a model reply, as in the OpenAI message
format: a correlation id, a tool name, and a raw (serialized JSON) argument
payload (`tool_call.id`, `tool_call.function.name`,
`tool_call.function.arguments`). -/
structure ToolCall where
  id : String
  name : String
  arguments : String
deriving DecidableEq

/-- One transcript turn: system, user, assistant (with requested tool
invocations), or tool-result (tagged with the originating call's id). -/
inductive Turn where
  | system : String → Turn
  | user : String → Turn
  | assistant : String → List ToolCall → Turn
  | toolResult : String → String → Turn
deriving DecidableEq

/-- Schema of one tool parameter: a semantic type string and an optional
description, as built by the `tool` decorator in `agency/tool.py`. -/
structure PropSchema where
  type : String
  descr : Option String
deriving DecidableEq

/-- A tool's schema: name, description, ordered parameter properties, and
the list of required parameter names (`function.schema` in
`agency/tool.py`). -/
structure ToolSchema where
  name : String
  descr : String
  properties : List (String × PropSchema)
  required : List String
deriving DecidableEq

/-- A tool: its schema plus the underlying callable.  The callable takes the
parsed argument map and either returns a result string (`str(result)`) or
raises, modelled as `Except.error`. -/
structure ToolFn where
  schema : ToolSchema
  call : List (String × String) → Except String String

/-- One outgoing request to the backend: the message list
(`[system_prompt, *self.messages]`) and the attached tool-schema list
(`tools=schemas`, which is `None` when the agent has no tools). -/
structure Request where
  messages : List Turn
  toolSchemas : Option (List ToolSchema)
deriving DecidableEq

/-- One scripted assistant reply from the backend
(`response.choices[0].message`). -/
structure AssistantMsg where
  content : String
  toolCalls : List ToolCall
deriving DecidableEq

/-- Abnormal outcomes of `Agent.run`: the scripted backend ran out of
replies (a backend fault), `json.loads` raised on a tool call's argument
payload, or the tool callable raised. -/
inductive RunError where
  | backendExhausted : RunError
  | jsonError : String → RunError
  | toolException : String → RunError
deriving DecidableEq

/-- The schema list attached to a request:
`[function.schema for function in self.tools] or None` — the Python `or`
turns an empty list into `None`. -/
def schemasOf (tools : List ToolFn) : Option (List ToolSchema) :=
  if tools.isEmpty then none else some (tools.map (·.schema))

/-- Lookup in `tool_map = {f.schema["function"]["name"]: f for f in tools}`:
a Python dict comprehension lets a later entry override an earlier one with
the same name, hence the search over the reversed list. -/
def toolMapGet (tools : List ToolFn) (n : String) : Option ToolFn :=
  tools.reverse.find? (fun f => f.schema.name == n)

/-- The tool-result turn appended for an unknown tool name:
`{"role": "tool", "tool_call_id": tool_call.id,
"content": f"Unknown tool: \x7btool_call.function.name\x7d"}`. -/
def unknownToolTurn (c : ToolCall) : Turn :=
  .toolResult c.id ("Unknown tool: " ++ c.name)

/-- The `for tool_call in message.tool_calls` dispatch loop of `Agent.run`:
unknown tool names append an unknown-tool result and continue; for a known
tool the raw arguments are parsed (`json.loads`, which may raise) and the
callable is invoked (which may raise); there is no `try`/`except` in the
source, so both faults propagate and abort the loop. -/
def processToolCalls (tools : List ToolFn)
    (parse : String → Option (List (String × String))) :
    List ToolCall → List Turn → Except RunError (List Turn)
  | [], ts => .ok ts
  | c :: cs, ts =>
    match toolMapGet tools c.name with
    | none => processToolCalls tools parse cs (ts ++ [unknownToolTurn c])
    | some f =>
      match parse c.arguments with
      | none => .error (.jsonError c.arguments)
      | some args =>
        match f.call args with
        | .error e => .error (.toolException e)
        | .ok r => processToolCalls tools parse cs (ts ++ [.toolResult c.id r])

/-- The `while True` loop of `Agent.run`.  `before` is the
`on_before_iteration` hook (the agency wires it to drain the seat's mailbox
into the transcript); `sys` is the system prompt, rendered once before the
loop; `replies` scripts the backend.  Returns the final reply, the final
transcript, the log of issued requests, and the log of `on_message` hook
invocations. -/
def runLoop (before : List Turn → List Turn) (tools : List ToolFn)
    (parse : String → Option (List (String × String))) (sys : Turn) :
    List AssistantMsg → List Turn → List Request → List AssistantMsg →
    Except RunError (AssistantMsg × List Turn × List Request × List AssistantMsg)
  | [], _, _, _ => .error .backendExhausted
  | reply :: rest, ts, reqs, msgs =>
    let ts1 := before ts
    let req : Request := ⟨sys :: ts1, schemasOf tools⟩
    let ts2 := ts1 ++ [Turn.assistant reply.content reply.toolCalls]
    let reqs2 := reqs ++ [req]
    if reply.toolCalls.isEmpty then
      .ok (reply, ts2, reqs2, msgs ++ [reply])
    else
      match processToolCalls tools parse reply.toolCalls ts2 with
      | .error e => .error e
      | .ok ts3 => runLoop before tools parse sys rest ts3 reqs2 msgs

/-- Entry point of `Agent.run` on an initial transcript: empty request and
message-hook logs. -/
def agentRun (before : List Turn → List Turn) (tools : List ToolFn)
    (parse : String → Option (List (String × String))) (sys : Turn)
    (replies : List AssistantMsg) (transcript : List Turn) :
    Except RunError (AssistantMsg × List Turn × List Request × List AssistantMsg) :=
  runLoop before tools parse sys replies transcript [] []

/-! ### Tool descriptor derivation (`agency/tool.py`) -/

/-- Python `str.strip()` on a character list: whitespace removed from both
ends. -/
def pyStripList (cs : List Char) : List Char :=
  ((cs.dropWhile Char.isWhitespace).reverse.dropWhile Char.isWhitespace).reverse

/-- Python `str.strip()`. -/
def pyStrip (s : String) : String :=
  ⟨pyStripList s.data⟩

/-- Python `str.lower()` (the header words compared against are ASCII). -/
def pyLower (s : String) : String :=
  ⟨s.data.map Char.toLower⟩

/-- Split a character list at every newline, keeping empty pieces, as
Python `str.split("\n")` does. -/
def splitNl : List Char → List (List Char)
  | [] => [[]]
  | c :: rest =>
    match splitNl rest with
    | [] => [[]]
    | l :: ls => if c = '\n' then [] :: l :: ls else (c :: l) :: ls

/-- Python `docstring.split("\n")`. -/
def pySplitLines (s : String) : List String :=
  (splitNl s.data).map (fun cs => ⟨cs⟩)

/-- Python `line.strip().lower() in ("args:", "arguments:", "parameters:")`:
is this line an Args-style section header? -/
def pyHeader (l : String) : Bool :=
  let t := pyLower (pyStrip l)
  t == "args:" || t == "arguments:" || t == "parameters:"

/-- Python `line[0].isspace()` guarded by `if line` — `false` on the empty
line, else whether the first character is whitespace (an indented line). -/
def firstIsSpace (l : String) : Bool :=
  match l.data with
  | [] => false
  | c :: _ => c.isWhitespace

/-- Python `":" in stripped`. -/
def hasColon (l : String) : Bool :=
  l.data.contains ':'

/-- Python `stripped.split(":", 1)`: the part before the first colon and the
part after it. -/
def splitColonFirst (l : String) : String × String :=
  (⟨l.data.takeWhile (fun c => c != ':')⟩,
   ⟨(l.data.dropWhile (fun c => c != ':')).drop 1⟩)

/-- Python dict assignment `d[k] = v`: overwrite in place when the key is
present, else append. -/
def dictInsert (acc : List (String × String)) (kv : String × String) :
    List (String × String) :=
  if acc.any (fun p => p.1 == kv.1) then
    acc.map (fun p => if p.1 == kv.1 then kv else p)
  else acc ++ [kv]

/-- Python `d.get(k)` on an insertion-ordered dict. -/
def dictLookup (d : List (String × String)) (k : String) : Option String :=
  (d.find? (fun p => p.1 == k)).map (·.2)

/-- The line scan of `_parse_parameter_descriptions`: a header line turns the
section on (and is otherwise skipped, even when one is met again later);
outside the section lines are skipped; inside it, a blank or non-indented
line breaks the scan, a line without a colon is skipped, and a
`name: description` line is recorded. -/
def parseLinesAux : List String → Bool → List (String × String) → List (String × String)
  | [], _, acc => acc
  | l :: rest, inArgs, acc =>
    let stripped := pyStrip l
    if pyHeader l then parseLinesAux rest true acc
    else if !inArgs then parseLinesAux rest false acc
    else if stripped == "" || !(firstIsSpace l) then acc
    else if !(hasColon stripped) then parseLinesAux rest true acc
    else
      let nd := splitColonFirst stripped
      parseLinesAux rest true (dictInsert acc (pyStrip nd.1, pyStrip nd.2))

/-- `_parse_parameter_descriptions` on an already-split line list. -/
def parseParameterDescriptionsLines (ls : List String) : List (String × String) :=
  parseLinesAux ls false []

/-- `_parse_parameter_descriptions(docstring)`: split on newlines and scan. -/
def parseParameterDescriptions (doc : String) : List (String × String) :=
  parseParameterDescriptionsLines (pySplitLines doc)

/-- A Python parameter type hint as seen by `get_type_hints`. -/
inductive PyType where
  | pstr : PyType
  | pint : PyType
  | pfloat : PyType
  | pbool : PyType
  | pother : PyType
deriving DecidableEq

/-- One parameter of the decorated callable, from `inspect.signature`:
its name, its optional type hint, and whether it has a default value
(`parameter.default is inspect.Parameter.empty` is the negation). -/
structure PyParam where
  name : String
  hint : Option PyType
  hasDefault : Bool
deriving DecidableEq

/-- `type_map.get(hints.get(parameter_name), "string")` with
`type_map = \x7bstr: "string", int: "integer", float: "number",
bool: "boolean"\x7d`. -/
def typeMapGet : Option PyType → String
  | some .pstr => "string"
  | some .pint => "integer"
  | some .pfloat => "number"
  | some .pbool => "boolean"
  | _ => "string"

/-- The schema built by the `tool` decorator: tool name (explicit or the
function's name), tool description (explicit, else the docstring's first
line, else the function's name), per-parameter properties with types and
docstring descriptions, and the required list collecting exactly the
parameters without a default value, in order. -/
def buildSchema (explicitName explicitDescr : Option String) (fnName : String)
    (docstring : String) (params : List PyParam) : ToolSchema :=
  let toolName := explicitName.getD fnName
  let toolDescr :=
    match explicitDescr with
    | some d => d
    | none =>
      if pyStrip docstring == "" then fnName
      else (pySplitLines (pyStrip docstring)).headD fnName
  let paramDescrs := parseParameterDescriptions docstring
  let properties := params.map (fun p =>
    (p.name, { type := typeMapGet p.hint, descr := dictLookup paramDescrs p.name : PropSchema }))
  let required := (params.filter (fun p => !p.hasDefault)).map (·.name)
  { name := toolName, descr := toolDescr, properties := properties, required := required }

/-! ### Agency router (`agency/agency.py`) -/

/-- The attributes of an agent that routing reads: id, display name, and tag
list (channel memberships). -/
structure PAgent where
  id : String
  name : String
  tags : List String
deriving DecidableEq

/-- An `AgentSeat`: the agent, whether `seat.thread` is currently not `None`
(a running-handle is present), and the `seat.inbox` queue of
(sender id, body) pairs. -/
structure Seat where
  agent : PAgent
  threadRunning : Bool
  inbox : List (String × String)
deriving DecidableEq

/-- `Agency.find_seat`: the first seat whose agent has the given id. -/
def findSeat (seats : List Seat) (aid : String) : Option Seat :=
  seats.find? (fun s => s.agent.id == aid)

/-- `Agency.find_channel_seats`: the seats tagged with the channel, the
excluded (sender) agent left out.  The source excludes by object identity
(`seat.agent is not exclude`); ids are unique within an agency, so identity
is modelled by id equality. -/
def findChannelSeats (seats : List Seat) (channel : String) (excludeId : String) :
    List Seat :=
  seats.filter (fun s => s.agent.tags.contains channel && s.agent.id != excludeId)

/-- The effect of `seat.inbox.append((agent, body))` followed by
`if seat.thread is None: self.run(seat.agent)`: the pair is enqueued and the
seat ends up with a running-handle (it is activated when idle, and keeps its
handle when already active). -/
def enqueueActivate (senderId body : String) (s : Seat) : Seat :=
  { s with inbox := s.inbox ++ [(senderId, body)], threadRunning := true }

/-- Update the first seat satisfying the predicate (mutation of the seat
object returned by `find_seat`, which picks the first match). -/
def updateFirst (p : Seat → Bool) (f : Seat → Seat) : List Seat → List Seat
  | [] => []
  | s :: rest => if p s then f s :: rest else s :: updateFirst p f rest

/-- Python `recipient.startswith("#")` (the prefix is the single character
`#`). -/
def pyStartsWithHash (s : String) : Bool :=
  match s.data with
  | [] => false
  | c :: _ => c == '#'

/-- Python `recipient[1:]`. -/
def pyDropFirst (s : String) : String :=
  ⟨s.data.drop 1⟩

/-- Python `", ".join(names)`. -/
def joinComma : List String → String
  | [] => ""
  | [x] => x
  | x :: rest => x ++ ", " ++ joinComma rest

/-- The body of the injected `SendMessage` tool, as a transformation of the
seat list.  Returns the tool's string result, the new seat list, and the
list of agent ids whose loop was started by this call (`self.run` on a seat
whose `thread` was `None`).  Channel recipients start with `#`; the member
set excludes the sender; empty member sets and unknown agent ids produce
not-found strings and change nothing. -/
def sendMessage (seats : List Seat) (sender : PAgent) (recipient body : String) :
    String × List Seat × List String :=
  if pyStartsWithHash recipient then
    let channel := pyDropFirst recipient
    let members := findChannelSeats seats channel sender.id
    if members.isEmpty then
      ("Channel #" ++ channel ++ " not found or has no other members", seats, [])
    else
      let newSeats := seats.map (fun s =>
        if s.agent.tags.contains channel && s.agent.id != sender.id then
          enqueueActivate sender.id body s
        else s)
      let activated := (members.filter (fun s => !s.threadRunning)).map (·.agent.id)
      let names := joinComma (members.map (·.agent.name))
      ("Message sent to #" ++ channel ++ " (" ++ toString members.length
        ++ " agent(s): " ++ names ++ ")", newSeats, activated)
  else
    match findSeat seats recipient with
    | none => ("Agent " ++ recipient ++ " not found", seats, [])
    | some seat =>
      let newSeats :=
        updateFirst (fun s => s.agent.id == recipient) (enqueueActivate sender.id body) seats
      let activated := if seat.threadRunning then [] else [seat.agent.id]
      ("Message sent to " ++ seat.agent.name ++ " (" ++ seat.agent.id ++ ")",
        newSeats, activated)

/-- The mailbox drain performed by `handle_before_iteration` in
`Agency.run`: every pending (sender, body) pair is read off for transcript
insertion and `seat.inbox.clear()` empties the queue. -/
def drainInbox (s : Seat) : List (String × String) × Seat :=
  (s.inbox, { s with inbox := [] })

/-! ### Agent construction and `Agent.with_tools` (`agency/agent.py`) -/

/-- A mutable-list store: transcript lists addressed by reference, so that
two agents holding the same reference share one transcript object. -/
def Store : Type := Nat → List Turn

/-- Appending a turn through a reference (`self.messages.append(...)`). -/
def storeAppend (σ : Store) (r : Nat) (t : Turn) : Store :=
  fun r' => if r' = r then σ r ++ [t] else σ r'

/-- The full attribute set `Agent.__init__` stores: the id freshly generated
by `secrets.token_hex(3)`, and the constructor arguments.  `msgRef` is the
reference to `self.messages`; `__init__` allocates a fresh empty list for
it. -/
structure AgentObj where
  id : String
  tools : List ToolFn
  model : String
  name : String
  descr : Option String
  instructions : Option String
  tags : List String
  msgRef : Nat

/-- `Agent.with_tools`: construct a new `Agent` with the concatenated tool
list and the same model/name/description/instructions/client/tags, then
overwrite its `messages` binding with the caller's own list object.  The
constructor runs `secrets.token_hex(3)` anew, so the clone's id is the
freshly generated token `freshId`, not a copy of `a.id`. -/
def withTools (a : AgentObj) (ts : List ToolFn) (freshId : String) : AgentObj :=
  { id := freshId
    tools := a.tools ++ ts
    model := a.model
    name := a.name
    descr := a.descr
    instructions := a.instructions
    tags := a.tags
    msgRef := a.msgRef }

/-! ### Derived notions used to state the claims -/

/-- The entry a line inside the Args section contributes: a header line is
skipped, a line without a colon is skipped, and any other line is split at
its first colon into a stripped name and description. -/
def entryOf (l : String) : Option (String × String) :=
  if pyHeader l then none
  else if hasColon (pyStrip l) then
    some (pyStrip (splitColonFirst (pyStrip l)).1, pyStrip (splitColonFirst (pyStrip l)).2)
  else none

/-- The Args section exactly as the specification sentence delimits it: the
lines after the first header line, up to (excluding) the first blank or
non-indented line. -/
def argsSectionOfClaim (ls : List String) : List String :=
  ((ls.dropWhile (fun l => !pyHeader l)).drop 1).takeWhile
    (fun l => pyStrip l != "" && firstIsSpace l)

/-! ### Concrete instances used in witnesses and counterexamples -/

/-- A concrete user tool named `echo`, with one required string parameter,
whose callable returns normally. -/
def echoTool : ToolFn :=
  { schema := buildSchema (some "echo") (some "Echo the arguments.") "echo" ""
      [⟨"text", some .pstr, false⟩]
    call := fun args => .ok (joinComma (args.map (fun p => p.1 ++ "=" ++ p.2))) }

/-- A concrete tool named `boom` whose underlying callable raises on every
invocation. -/
def raisingTool : ToolFn :=
  { schema := buildSchema (some "boom") (some "Always raises.") "boom" "" []
    call := fun _ => .error "boom" }

/-- The behaviour of `json.loads` on the concrete payloads used below: the
empty JSON object parses to the empty argument map, and a payload that is
not valid JSON raises (`none`). -/
def parseStub : String → Option (List (String × String)) :=
  fun s => if s = "\x7b\x7d" then some [] else none

end Agency

namespace Agency

/-! ### Theorems for the claims -/

/-- C7: for every tool descriptor produced by the `tool` decorator, the set
of parameter names listed as required equals exactly the set of the
callable's parameters that have no default value. -/
theorem C7_required_iff_no_default (en ed : Option String) (fn doc : String)
    (params : List PyParam) (x : String) :
    x ∈ (buildSchema en ed fn doc params).required ↔
      ∃ p ∈ params, p.name = x ∧ p.hasDefault = false := by
  simp only [buildSchema, List.mem_map, List.mem_filter, Bool.not_eq_true']
  constructor
  · rintro ⟨p, ⟨hp, hd⟩, hn⟩
    exact ⟨p, hp, hn, hd⟩
  · rintro ⟨p, hp, hn, hd⟩
    exact ⟨p, ⟨hp, hd⟩, hn⟩

/-- Lines before the first header never record anything and never turn the
section on. -/
theorem parseAux_skip_before (pre ls : List String) (acc : List (String × String))
    (hpre : ∀ l ∈ pre, pyHeader l = false) :
    parseLinesAux (pre ++ ls) false acc = parseLinesAux ls false acc := by
  induction pre with
  | nil => rfl
  | cons l pre ih =>
    have hl : pyHeader l = false := hpre l (List.mem_cons_self l pre)
    simp only [List.cons_append, parseLinesAux, hl, Bool.false_eq_true, if_false,
      Bool.not_false, if_true]
    exact ih fun x hx => hpre x (List.mem_cons_of_mem l hx)

/-- A header line turns the section on. -/
theorem parseAux_header (hline : String) (ls : List String) (b : Bool)
    (acc : List (String × String)) (hh : pyHeader hline = true) :
    parseLinesAux (hline :: ls) b acc = parseLinesAux ls true acc := by
  simp [parseLinesAux, hh]

/-- Inside the section, the scan records exactly the contribution of each
section line (headers and colon-free lines are skipped, other lines are
split at the first colon), and stops at the terminator, ignoring everything
after it. -/
theorem parseAux_section (sec : List String) (t : String) (rest : List String)
    (acc : List (String × String))
    (hsec : ∀ l ∈ sec, pyHeader l = true ∨ (pyStrip l ≠ "" ∧ firstIsSpace l = true))
    (ht : pyHeader t = false) (ht2 : pyStrip t = "" ∨ firstIsSpace t = false) :
    parseLinesAux (sec ++ t :: rest) true acc =
      (sec.filterMap entryOf).foldl dictInsert acc := by
  induction sec generalizing acc with
  | nil =>
    simp only [List.nil_append, List.filterMap_nil, List.foldl_nil, parseLinesAux, ht,
      Bool.false_eq_true, if_false, Bool.not_true, Bool.false_eq_true, if_false]
    rcases ht2 with h2 | h2 <;> simp [h2]
  | cons l sec ih =>
    rcases hpl : pyHeader l with hfalse | htrue
    · rcases hsec l (List.mem_cons_self l sec) with hcase | ⟨hnb, hind⟩
      · rw [hpl] at hcase; exact absurd hcase (by simp)
      · have hsec' : ∀ x ∈ sec, pyHeader x = true ∨ (pyStrip x ≠ "" ∧ firstIsSpace x = true) :=
          fun x hx => hsec x (List.mem_cons_of_mem l hx)
        have hnb' : (pyStrip l == "") = false := by simpa using hnb
        rcases hcol : hasColon (pyStrip l) with cfalse | ctrue
        · have : entryOf l = none := by simp [entryOf, hpl, hcol]
          simp only [List.cons_append, parseLinesAux, hpl, Bool.false_eq_true, if_false,
            Bool.not_true, hnb', hind, Bool.not_true, Bool.or_self, if_false, hcol,
            Bool.not_false, if_true, List.filterMap_cons, this]
          exact ih acc hsec'
        · have : entryOf l =
              some (pyStrip (splitColonFirst (pyStrip l)).1, pyStrip (splitColonFirst (pyStrip l)).2) := by
            simp [entryOf, hpl, hcol]
          simp only [List.cons_append, parseLinesAux, hpl, Bool.false_eq_true, if_false,
            Bool.not_true, hnb', hind, Bool.or_self, if_false, hcol, Bool.not_true,
            if_false, List.filterMap_cons, this, List.foldl_cons]
          exact ih _ hsec'
    · have : entryOf l = none := by simp [entryOf, hpl]
      simp only [List.cons_append, parseLinesAux, hpl, if_true, List.filterMap_cons, this]
      exact ih acc fun x hx => hsec x (List.mem_cons_of_mem l hx)

/-- C8 (counterexample): in the doc comment with lines `Args:`, `    x: a`,
`Parameters:`, `    y: b`, the section delimited by the claim — from the
`Args:` header to the first blank or non-indented line — contains only
`    x: a`, yet the parser also captures the entry `y`, which lies outside
that section: the claim as stated is false. -/
theorem C8_counterexample :
    argsSectionOfClaim ["Args:", "    x: a", "Parameters:", "    y: b"] = ["    x: a"] ∧
    dictLookup (parseParameterDescriptionsLines
      ["Args:", "    x: a", "Parameters:", "    y: b"]) "y" = some "b" := by
  decide

/-- C8 (amended): for a doc comment consisting of header-free lines, then an
Args-style header, then section lines — each either an indented non-blank
line or a header line, the latter being skipped without ending the section —
then a non-header terminator line (blank or non-indented) and arbitrary
further lines, the parser captures exactly the `name: description` entries
of the section lines (split at the first colon, both parts stripped,
colon-free lines skipped) and nothing from the lines before the header or
from the terminator onwards. -/
theorem C8_args_section_capture (pre : List String) (hline : String)
    (sec : List String) (t : String) (rest : List String)
    (hpre : ∀ l ∈ pre, pyHeader l = false)
    (hh : pyHeader hline = true)
    (hsec : ∀ l ∈ sec, pyHeader l = true ∨ (pyStrip l ≠ "" ∧ firstIsSpace l = true))
    (ht : pyHeader t = false) (ht2 : pyStrip t = "" ∨ firstIsSpace t = false) :
    parseParameterDescriptionsLines (pre ++ hline :: (sec ++ t :: rest)) =
      (sec.filterMap entryOf).foldl dictInsert [] := by
  unfold parseParameterDescriptionsLines
  rw [parseAux_skip_before pre _ _ hpre, parseAux_header hline _ _ _ hh,
    parseAux_section sec t rest [] hsec ht ht2]

/-- C8 (witness): the capture theorem applied to a concrete doc comment. -/
theorem C8_args_section_capture_witness :
    parseParameterDescriptionsLines
      (["Send it.", ""] ++ "Args:" :: (["    a: one", "    b: two"] ++ "" :: ["    c: three"])) =
      [("a", "one"), ("b", "two")] := by
  rw [C8_args_section_capture ["Send it.", ""] "Args:" ["    a: one", "    b: two"] ""
    ["    c: three"] (by decide) (by decide) (by decide) (by decide) (by decide)]
  decide

/-- C3: delivering to an unknown agent id, or to a `#`-prefixed channel
whose member set excluding the sender is empty, returns the descriptive
not-found string, leaves every mailbox unchanged, and activates no loop. -/
theorem C3_not_found_no_effect (seats : List Seat) (sender : PAgent)
    (rid rc ch body : String)
    (h1 : pyStartsWithHash rid = false) (h2 : findSeat seats rid = none)
    (hc1 : pyStartsWithHash rc = true) (hc2 : pyDropFirst rc = ch)
    (hc3 : findChannelSeats seats ch sender.id = []) :
    sendMessage seats sender rid body = ("Agent " ++ rid ++ " not found", seats, []) ∧
    sendMessage seats sender rc body =
      ("Channel #" ++ ch ++ " not found or has no other members", seats, []) := by
  constructor
  · simp [sendMessage, h1, h2]
  · simp [sendMessage, hc1, hc2, hc3]

/-- C3 (witness): a concrete one-seat agency, an unknown agent id and a
channel with no members other than the sender. -/
theorem C3_not_found_no_effect_witness :
    sendMessage [⟨⟨"aaa", "A", ["dev"]⟩, false, []⟩] ⟨"aaa", "A", ["dev"]⟩ "zzz" "hi" =
      ("Agent " ++ "zzz" ++ " not found", [⟨⟨"aaa", "A", ["dev"]⟩, false, []⟩], []) ∧
    sendMessage [⟨⟨"aaa", "A", ["dev"]⟩, false, []⟩] ⟨"aaa", "A", ["dev"]⟩ "#dev" "hi" =
      ("Channel #" ++ "dev" ++ " not found or has no other members",
        [⟨⟨"aaa", "A", ["dev"]⟩, false, []⟩], []) :=
  C3_not_found_no_effect [⟨⟨"aaa", "A", ["dev"]⟩, false, []⟩] ⟨"aaa", "A", ["dev"]⟩
    "zzz" "#dev" "dev" "hi" (by decide) (by decide) (by decide) (by decide) (by decide)

/-- C4: sending to a `#`-prefixed channel whose tagged seats are the sender
A and two others B and C enqueues the (sender, body) pair into B's and C's
mailboxes only — never into A's — and the returned status string names
exactly B and C and reports the member count 2. -/
theorem C4_channel_excludes_sender (sA sB sC : Seat) (ch body rc : String)
    (hrc1 : pyStartsWithHash rc = true) (hrc2 : pyDropFirst rc = ch)
    (htA : sA.agent.tags.contains ch = true)
    (htB : sB.agent.tags.contains ch = true)
    (htC : sC.agent.tags.contains ch = true)
    (hB : sB.agent.id ≠ sA.agent.id) (hC : sC.agent.id ≠ sA.agent.id) :
    (sendMessage [sA, sB, sC] sA.agent rc body).1 =
      "Message sent to #" ++ ch ++ " (" ++ toString (2 : Nat) ++ " agent(s): "
        ++ (sB.agent.name ++ ", " ++ sC.agent.name) ++ ")" ∧
    (sendMessage [sA, sB, sC] sA.agent rc body).2.1 =
      [sA, enqueueActivate sA.agent.id body sB, enqueueActivate sA.agent.id body sC] := by
  have hB' : (sB.agent.id != sA.agent.id) = true := by simp [hB]
  have hC' : (sC.agent.id != sA.agent.id) = true := by simp [hC]
  have hmA : ch ∈ sA.agent.tags := by simpa using htA
  have hmB : ch ∈ sB.agent.tags := by simpa using htB
  have hmC : ch ∈ sC.agent.tags := by simpa using htC
  constructor
  · simp [sendMessage, hrc1, hrc2, findChannelSeats, hmA, hmB, hmC, hB, hC, hB', hC', joinComma]
  · simp [sendMessage, hrc1, hrc2, findChannelSeats, hmA, hmB, hmC, hB, hC, hB', hC']

/-- C4 (witness): a concrete three-seat channel. -/
theorem C4_channel_excludes_sender_witness :
    (sendMessage [⟨⟨"aaa", "A", ["dev"]⟩, false, []⟩, ⟨⟨"bbb", "B", ["dev"]⟩, false, []⟩,
        ⟨⟨"ccc", "C", ["dev"]⟩, true, []⟩] ⟨"aaa", "A", ["dev"]⟩ "#dev" "hi").1 =
      "Message sent to #" ++ "dev" ++ " (" ++ toString (2 : Nat) ++ " agent(s): "
        ++ ("B" ++ ", " ++ "C") ++ ")" ∧
    (sendMessage [⟨⟨"aaa", "A", ["dev"]⟩, false, []⟩, ⟨⟨"bbb", "B", ["dev"]⟩, false, []⟩,
        ⟨⟨"ccc", "C", ["dev"]⟩, true, []⟩] ⟨"aaa", "A", ["dev"]⟩ "#dev" "hi").2.1 =
      [⟨⟨"aaa", "A", ["dev"]⟩, false, []⟩,
        enqueueActivate "aaa" "hi" ⟨⟨"bbb", "B", ["dev"]⟩, false, []⟩,
        enqueueActivate "aaa" "hi" ⟨⟨"ccc", "C", ["dev"]⟩, true, []⟩] :=
  C4_channel_excludes_sender ⟨⟨"aaa", "A", ["dev"]⟩, false, []⟩
    ⟨⟨"bbb", "B", ["dev"]⟩, false, []⟩ ⟨⟨"ccc", "C", ["dev"]⟩, true, []⟩ "dev" "hi" "#dev"
    (by decide) (by decide) (by decide) (by decide) (by decide) (by decide) (by decide)

/-- Updating the first seat with a given agent id, by an update that keeps
the agent, is reflected in a subsequent `find_seat` for that id. -/
theorem findSeat_updateFirst (seats : List Seat) (rid : String) (f : Seat → Seat)
    (B : Seat) (hf : ∀ s, (f s).agent = s.agent)
    (h : findSeat seats rid = some B) :
    findSeat (updateFirst (fun s => s.agent.id == rid) f seats) rid = some (f B) := by
  induction seats with
  | nil => simp [findSeat] at h
  | cons s rest ih =>
    rcases hp : (s.agent.id == rid) with hfalse | htrue
    · rw [findSeat, List.find?_cons_of_neg _ (by simp [hp])] at h
      rw [updateFirst, hp]
      simp only [Bool.false_eq_true, if_false]
      rw [findSeat, List.find?_cons_of_neg _ (by simp [hp])]
      exact ih h
    · rw [findSeat, List.find?_cons_of_pos _ (by simp [hp])] at h
      cases h
      rw [updateFirst, hp]
      simp only [if_true]
      rw [findSeat, List.find?_cons_of_pos _ (by simp [hf, hp])]

/-- C2: delivering mail to a seat with no running-handle starts exactly one
loop (that seat's), a second delivery in quick succession to the same seat
starts no further loop, and after both deliveries the seat's mailbox holds
both (sender, body) pairs in order, so a drain of that single activation's
mailbox yields both messages. -/
theorem C2_two_deliveries_one_activation (seats : List Seat) (A : PAgent)
    (rid b1 b2 : String) (B : Seat)
    (hnc : pyStartsWithHash rid = false)
    (hfind : findSeat seats rid = some B)
    (hidle : B.threadRunning = false) :
    (sendMessage seats A rid b1).2.2 = [B.agent.id] ∧
    (sendMessage (sendMessage seats A rid b1).2.1 A rid b2).2.2 = [] ∧
    findSeat (sendMessage (sendMessage seats A rid b1).2.1 A rid b2).2.1 rid =
      some { B with inbox := B.inbox ++ [(A.id, b1), (A.id, b2)], threadRunning := true } ∧
    (drainInbox
        { B with inbox := B.inbox ++ [(A.id, b1), (A.id, b2)], threadRunning := true }).1 =
      B.inbox ++ [(A.id, b1), (A.id, b2)] := by
  have h1 : sendMessage seats A rid b1 =
      ("Message sent to " ++ B.agent.name ++ " (" ++ B.agent.id ++ ")",
        updateFirst (fun s => s.agent.id == rid) (enqueueActivate A.id b1) seats,
        [B.agent.id]) := by
    simp [sendMessage, hnc, hfind, hidle]
  have hfind2 : findSeat (updateFirst (fun s => s.agent.id == rid)
      (enqueueActivate A.id b1) seats) rid = some (enqueueActivate A.id b1 B) :=
    findSeat_updateFirst seats rid _ B (fun _ => rfl) hfind
  have h2 : sendMessage (updateFirst (fun s => s.agent.id == rid)
      (enqueueActivate A.id b1) seats) A rid b2 =
      ("Message sent to " ++ (enqueueActivate A.id b1 B).agent.name ++ " ("
          ++ (enqueueActivate A.id b1 B).agent.id ++ ")",
        updateFirst (fun s => s.agent.id == rid) (enqueueActivate A.id b2)
          (updateFirst (fun s => s.agent.id == rid) (enqueueActivate A.id b1) seats),
        []) := by
    simp [sendMessage, hnc, hfind2, enqueueActivate]
  have hfind3 := findSeat_updateFirst _ rid (enqueueActivate A.id b2)
    (enqueueActivate A.id b1 B) (fun _ => rfl) hfind2
  refine ⟨by rw [h1], by rw [h1, h2], ?_, rfl⟩
  rw [h1, h2]
  simpa [enqueueActivate] using hfind3

/-- C2 (witness): a concrete two-seat agency with an idle recipient. -/
theorem C2_two_deliveries_one_activation_witness :
    (sendMessage [⟨⟨"aaa", "A", []⟩, false, []⟩, ⟨⟨"bbb", "B", []⟩, false, []⟩]
      ⟨"aaa", "A", []⟩ "bbb" "one").2.2 = ["bbb"] ∧
    (sendMessage (sendMessage [⟨⟨"aaa", "A", []⟩, false, []⟩, ⟨⟨"bbb", "B", []⟩, false, []⟩]
      ⟨"aaa", "A", []⟩ "bbb" "one").2.1 ⟨"aaa", "A", []⟩ "bbb" "two").2.2 = [] ∧
    findSeat (sendMessage (sendMessage [⟨⟨"aaa", "A", []⟩, false, []⟩,
        ⟨⟨"bbb", "B", []⟩, false, []⟩]
      ⟨"aaa", "A", []⟩ "bbb" "one").2.1 ⟨"aaa", "A", []⟩ "bbb" "two").2.1 "bbb" =
      some (Seat.mk ⟨"bbb", "B", []⟩ true ([] ++ [("aaa", "one"), ("aaa", "two")])) ∧
    (drainInbox (Seat.mk ⟨"bbb", "B", []⟩ true ([] ++ [("aaa", "one"), ("aaa", "two")]))).1 =
      [] ++ [("aaa", "one"), ("aaa", "two")] :=
  C2_two_deliveries_one_activation
    [⟨⟨"aaa", "A", []⟩, false, []⟩, ⟨⟨"bbb", "B", []⟩, false, []⟩] ⟨"aaa", "A", []⟩
    "bbb" "one" "two" ⟨⟨"bbb", "B", []⟩, false, []⟩ (by decide) (by decide) (by decide)

/-- One loop iteration on a reply without tool invocations: a single
request, the reply appended, the hook log extended, the reply returned. -/
theorem runLoop_plain_reply (before : List Turn → List Turn)
    (tools : List ToolFn) (parse : String → Option (List (String × String)))
    (sys : Turn) (reply : AssistantMsg) (rest : List AssistantMsg)
    (ts : List Turn) (reqs : List Request) (msgs : List AssistantMsg)
    (h : reply.toolCalls = []) :
    runLoop before tools parse sys (reply :: rest) ts reqs msgs =
      .ok (reply, before ts ++ [Turn.assistant reply.content reply.toolCalls],
        reqs ++ [⟨sys :: before ts, schemasOf tools⟩], msgs ++ [reply]) := by
  simp [runLoop, h]

/-- C6: when the model reply carries zero tool invocations, the activation
ends after exactly one backend round trip — one request is issued, the reply
is appended to the transcript, the on-message hook is invoked with exactly
that reply, and `Agent.run` returns it. -/
theorem C6_no_tool_calls_one_round_trip (before : List Turn → List Turn)
    (tools : List ToolFn) (parse : String → Option (List (String × String)))
    (sys : Turn) (reply : AssistantMsg) (rest : List AssistantMsg)
    (ts : List Turn) (reqs : List Request) (msgs : List AssistantMsg)
    (h : reply.toolCalls = []) :
    runLoop before tools parse sys (reply :: rest) ts reqs msgs =
      .ok (reply, before ts ++ [Turn.assistant reply.content reply.toolCalls],
        reqs ++ [⟨sys :: before ts, schemasOf tools⟩], msgs ++ [reply]) :=
  runLoop_plain_reply before tools parse sys reply rest ts reqs msgs h

/-- C6 (witness): a single scripted plain reply ends the run at once. -/
theorem C6_no_tool_calls_one_round_trip_witness :
    runLoop id [] parseStub (Turn.system "s") [⟨"hi", []⟩] [] [] [] =
      .ok (⟨"hi", []⟩, [Turn.assistant "hi" []],
        [⟨[Turn.system "s"], schemasOf []⟩], [⟨"hi", []⟩]) :=
  C6_no_tool_calls_one_round_trip id [] parseStub (Turn.system "s") ⟨"hi", []⟩ [] [] [] []
    rfl

/-- Dispatching a list of tool invocations none of whose names is known
appends exactly one unknown-tool result per invocation, in order, and never
fails. -/
theorem processToolCalls_all_unknown (tools : List ToolFn)
    (parse : String → Option (List (String × String))) (calls : List ToolCall) :
    ∀ ts : List Turn, (∀ c ∈ calls, toolMapGet tools c.name = none) →
      processToolCalls tools parse calls ts = .ok (ts ++ calls.map unknownToolTurn) := by
  induction calls with
  | nil => intro ts _; simp [processToolCalls]
  | cons c cs ih =>
    intro ts h
    have hc : toolMapGet tools c.name = none := h c (List.mem_cons_self c cs)
    rw [processToolCalls, hc]
    rw [ih (ts ++ [unknownToolTurn c]) fun x hx => h x (List.mem_cons_of_mem c hx)]
    simp

/-- C5: when every tool invocation of a reply names a tool unknown to the
agent, the loop appends one unknown-tool result per invocation — each tagged
with that call's correlation id — and issues a further backend round trip:
with a following plain reply the run ends normally having issued exactly two
requests. -/
theorem C5_unknown_tool_round_trips (before : List Turn → List Turn)
    (tools : List ToolFn) (parse : String → Option (List (String × String)))
    (sys : Turn) (reply r2 : AssistantMsg) (rest : List AssistantMsg)
    (ts : List Turn) (reqs : List Request) (msgs : List AssistantMsg)
    (hne : reply.toolCalls ≠ [])
    (hunknown : reply.toolCalls.all (fun c => (toolMapGet tools c.name).isNone) = true)
    (hr2 : r2.toolCalls = []) :
    runLoop before tools parse sys (reply :: r2 :: rest) ts reqs msgs =
      .ok (r2,
        before (before ts ++ [Turn.assistant reply.content reply.toolCalls]
            ++ reply.toolCalls.map unknownToolTurn) ++ [Turn.assistant r2.content r2.toolCalls],
        reqs ++ [⟨sys :: before ts, schemasOf tools⟩]
          ++ [⟨sys :: before (before ts ++ [Turn.assistant reply.content reply.toolCalls]
              ++ reply.toolCalls.map unknownToolTurn), schemasOf tools⟩],
        msgs ++ [r2]) := by
  have hne' : reply.toolCalls.isEmpty = false := by
    cases hcalls : reply.toolCalls with
    | nil => exact absurd hcalls hne
    | cons a l => simp
  have hunknown' : ∀ c ∈ reply.toolCalls, toolMapGet tools c.name = none := by
    intro c hc
    exact Option.isNone_iff_eq_none.mp (List.all_eq_true.mp hunknown c hc)
  rw [runLoop]
  simp only [hne', Bool.false_eq_true, if_false,
    processToolCalls_all_unknown tools parse reply.toolCalls _ hunknown',
    runLoop_plain_reply before tools parse sys r2 rest _ _ msgs hr2]

/-- C5 (witness): one reply invoking two unknown tools, then a plain reply:
two requests are issued, both unknown-tool results are appended with their
call ids, and the run ends normally. -/
theorem C5_unknown_tool_round_trips_witness :
    runLoop id [echoTool] parseStub (Turn.system "s")
      [⟨"use tools", [⟨"call_1", "ghost", "\x7b\x7d"⟩, ⟨"call_2", "phantom", "\x7b\x7d"⟩]⟩,
        ⟨"done", []⟩] [] [] [] =
      .ok (⟨"done", []⟩,
        id (id [] ++ [Turn.assistant "use tools"
              [⟨"call_1", "ghost", "\x7b\x7d"⟩, ⟨"call_2", "phantom", "\x7b\x7d"⟩]]
            ++ [⟨"call_1", "ghost", "\x7b\x7d"⟩,
              ⟨"call_2", "phantom", "\x7b\x7d"⟩].map unknownToolTurn)
          ++ [Turn.assistant "done" []],
        [] ++ [⟨Turn.system "s" :: id [], schemasOf [echoTool]⟩]
          ++ [⟨Turn.system "s" :: id (id [] ++ [Turn.assistant "use tools"
                [⟨"call_1", "ghost", "\x7b\x7d"⟩, ⟨"call_2", "phantom", "\x7b\x7d"⟩]]
              ++ [⟨"call_1", "ghost", "\x7b\x7d"⟩,
                ⟨"call_2", "phantom", "\x7b\x7d"⟩].map unknownToolTurn),
            schemasOf [echoTool]⟩],
        [] ++ [⟨"done", []⟩]) :=
  C5_unknown_tool_round_trips id [echoTool] parseStub (Turn.system "s")
    ⟨"use tools", [⟨"call_1", "ghost", "\x7b\x7d"⟩, ⟨"call_2", "phantom", "\x7b\x7d"⟩]⟩
    ⟨"done", []⟩ [] [] [] [] (by decide) (by decide) rfl

/-- C1: `Agent.run` has no `try`/`except` around argument parsing or tool
invocation, so for a known tool both an argument payload that fails to parse
and a callable that raises abort the loop abnormally — no tool-result turn
recording the error is appended and no further round trip happens — contrary
to the claim.  First conjunct: the `echo` tool invoked with a non-JSON
payload makes the run end in the propagated `json.loads` fault.  Second
conjunct: the `boom` tool invoked with a well-formed payload makes the run
end in the propagated callable exception. -/
theorem C1_fault_aborts_loop :
    runLoop id [echoTool] parseStub (Turn.system "s")
      [⟨"use echo", [⟨"call_1", "echo", "not json"⟩]⟩, ⟨"done", []⟩] [] [] [] =
      .error (.jsonError "not json") ∧
    runLoop id [raisingTool] parseStub (Turn.system "s")
      [⟨"use boom", [⟨"call_1", "boom", "\x7b\x7d"⟩]⟩, ⟨"done", []⟩] [] [] [] =
      .error (.toolException "boom") :=
  ⟨rfl, rfl⟩

/-- Dispatching tool invocations only ever appends turns to the
transcript. -/
theorem processToolCalls_extends_transcript (tools : List ToolFn)
    (parse : String → Option (List (String × String))) (calls : List ToolCall) :
    ∀ (ts ts' : List Turn), processToolCalls tools parse calls ts = .ok ts' →
      ∃ e, ts' = ts ++ e := by
  induction calls with
  | nil =>
    intro ts ts' h
    rw [processToolCalls] at h
    cases h
    exact ⟨[], by simp⟩
  | cons c cs ih =>
    intro ts ts' h
    rw [processToolCalls] at h
    cases hm : toolMapGet tools c.name with
    | none =>
      simp only [hm] at h
      obtain ⟨e, he⟩ := ih _ _ h
      exact ⟨unknownToolTurn c :: e, by simp [he]⟩
    | some f =>
      simp only [hm] at h
      cases hp : parse c.arguments with
      | none => simp only [hp] at h; cases h
      | some args =>
        simp only [hp] at h
        cases hr : f.call args with
        | error e => simp only [hr] at h; cases h
        | ok r =>
          simp only [hr] at h
          obtain ⟨e, he⟩ := ih _ _ h
          exact ⟨Turn.toolResult c.id r :: e, by simp [he]⟩

/-- Every request a successful run issues is the fixed system turn followed
by the transcript current at that iteration (a stage of the append-only
transcript evolution, hence a list of which the final transcript is an
extension), with the fixed schema list attached; the request log only
grows. -/
theorem runLoop_requests_shape (before : List Turn → List Turn)
    (tools : List ToolFn) (parse : String → Option (List (String × String)))
    (sys : Turn) (hbefore : ∀ t, ∃ e, before t = t ++ e) :
    ∀ (replies : List AssistantMsg) (ts : List Turn) (reqs : List Request)
      (msgs : List AssistantMsg) (msg : AssistantMsg) (fin : List Turn)
      (reqs' : List Request) (msgs' : List AssistantMsg),
      runLoop before tools parse sys replies ts reqs msgs = .ok (msg, fin, reqs', msgs') →
      (∃ e, fin = ts ++ e) ∧
      ∃ nr, reqs' = reqs ++ nr ∧ ∀ req ∈ nr,
        req.toolSchemas = schemasOf tools ∧
        ∃ t e, req.messages = sys :: t ∧ fin = t ++ e := by
  intro replies
  induction replies with
  | nil => intro ts reqs msgs msg fin reqs' msgs' h; rw [runLoop] at h; cases h
  | cons reply rest ih =>
    intro ts reqs msgs msg fin reqs' msgs' h
    rw [runLoop] at h
    obtain ⟨d, hd⟩ := hbefore ts
    by_cases hc : reply.toolCalls.isEmpty
    · rw [if_pos hc] at h
      cases h
      refine ⟨⟨d ++ [Turn.assistant reply.content reply.toolCalls], by simp [hd]⟩,
        [⟨sys :: before ts, schemasOf tools⟩], rfl, ?_⟩
      intro req hreq
      rcases List.mem_singleton.mp hreq with rfl
      exact ⟨rfl, before ts, [Turn.assistant reply.content reply.toolCalls], rfl, rfl⟩
    · rw [if_neg hc] at h
      cases hpc : processToolCalls tools parse reply.toolCalls
          (before ts ++ [Turn.assistant reply.content reply.toolCalls]) with
      | error e => rw [hpc] at h; cases h
      | ok ts3 =>
        rw [hpc] at h
        obtain ⟨⟨e1, he1⟩, nr, hnr, hprops⟩ := ih _ _ _ _ _ _ _ h
        obtain ⟨e0, he0⟩ := processToolCalls_extends_transcript tools parse
          reply.toolCalls _ _ hpc
        constructor
        · exact ⟨d ++ [Turn.assistant reply.content reply.toolCalls] ++ e0 ++ e1, by
            simp [he1, he0, hd]⟩
        · refine ⟨⟨sys :: before ts, schemasOf tools⟩ :: nr, by simpa using hnr, ?_⟩
          intro req hreq
          rcases List.mem_cons.mp hreq with rfl | hmem
          · exact ⟨rfl, before ts,
              [Turn.assistant reply.content reply.toolCalls] ++ e0 ++ e1, rfl, by
                simp [he1, he0]⟩
          · exact hprops req hmem

/-- C9: in every iteration of a successful run, the request issued to the
backend is the system turn — fixed once for the whole activation — followed
by the transcript as it stands at that iteration (each such transcript being
a stage the final transcript extends), and the attached tool-schema list is
`none` exactly when the agent has no tools and otherwise lists exactly one
schema per tool. -/
theorem C9_requests_sys_then_transcript (before : List Turn → List Turn)
    (tools : List ToolFn) (parse : String → Option (List (String × String)))
    (sys : Turn) (replies : List AssistantMsg) (ts : List Turn)
    (msg : AssistantMsg) (fin : List Turn) (reqs : List Request)
    (msgs : List AssistantMsg)
    (hbefore : ∀ t, ∃ e, before t = t ++ e)
    (h : agentRun before tools parse sys replies ts = .ok (msg, fin, reqs, msgs)) :
    (∀ req ∈ reqs, req.toolSchemas = schemasOf tools ∧
      ∃ t e, req.messages = sys :: t ∧ fin = t ++ e) ∧
    (tools = [] → schemasOf tools = none) ∧
    (tools ≠ [] → schemasOf tools = some (tools.map (·.schema))) := by
  obtain ⟨-, nr, hnr, hprops⟩ :=
    runLoop_requests_shape before tools parse sys hbefore replies ts [] [] msg fin reqs msgs h
  refine ⟨?_, ?_, ?_⟩
  · intro req hreq
    exact hprops req (by simpa [hnr] using hreq)
  · intro htools; simp [schemasOf, htools]
  · intro htools; simp [schemasOf, List.isEmpty_iff, htools]

/-- C9 (witness): a one-tool agent and a single plain reply — the single
request carries the system turn and the one-element schema list. -/
theorem C9_requests_sys_then_transcript_witness :
    (∀ req ∈ [(⟨[Turn.system "s"], schemasOf [echoTool]⟩ : Request)],
      req.toolSchemas = schemasOf [echoTool] ∧
      ∃ t e, req.messages = Turn.system "s" :: t ∧ [Turn.assistant "hi" []] = t ++ e) ∧
    ([echoTool] = ([] : List ToolFn) → schemasOf [echoTool] = none) ∧
    ([echoTool] ≠ ([] : List ToolFn) →
      schemasOf [echoTool] = some ([echoTool].map (·.schema))) :=
  C9_requests_sys_then_transcript id [echoTool] parseStub (Turn.system "s")
    [⟨"hi", []⟩] [] ⟨"hi", []⟩ [Turn.assistant "hi" []]
    [⟨[Turn.system "s"], schemasOf [echoTool]⟩] [⟨"hi", []⟩]
    (fun t => ⟨[], by simp⟩) rfl

/-- C10: the tool-augmented clone built by `Agent.with_tools` carries the
original agent's tools followed by the given ones and the very same shared
transcript object (an append through the clone's reference is visible
through the original's), but its id is the freshly generated token, not a
copy of the original's id. -/
theorem C10_with_tools_clone (a : AgentObj) (ts : List ToolFn) (freshId : String)
    (hfresh : freshId ≠ a.id) :
    (withTools a ts freshId).tools = a.tools ++ ts ∧
    (withTools a ts freshId).msgRef = a.msgRef ∧
    (withTools a ts freshId).id = freshId ∧
    (withTools a ts freshId).id ≠ a.id ∧
    (∀ (σ : Store) (t : Turn),
      storeAppend σ (withTools a ts freshId).msgRef t a.msgRef = σ a.msgRef ++ [t]) :=
  ⟨rfl, rfl, rfl, hfresh, fun σ t => by simp [storeAppend, withTools]⟩

/-- C10 (witness): a concrete clone of a concrete agent. -/
theorem C10_with_tools_clone_witness :
    (withTools ⟨"aaa", [], "m", "A", none, none, [], 0⟩ [echoTool] "bbb").tools =
      [] ++ [echoTool] ∧
    (withTools ⟨"aaa", [], "m", "A", none, none, [], 0⟩ [echoTool] "bbb").msgRef = 0 ∧
    (withTools ⟨"aaa", [], "m", "A", none, none, [], 0⟩ [echoTool] "bbb").id = "bbb" ∧
    (withTools ⟨"aaa", [], "m", "A", none, none, [], 0⟩ [echoTool] "bbb").id ≠ "aaa" ∧
    storeAppend (fun _ => [])
      (withTools ⟨"aaa", [], "m", "A", none, none, [], 0⟩ [echoTool] "bbb").msgRef
      (Turn.user "u") 0 = [] ++ [Turn.user "u"] := by
  obtain ⟨h1, h2, h3, h4, h5⟩ :=
    C10_with_tools_clone ⟨"aaa", [], "m", "A", none, none, [], 0⟩ [echoTool] "bbb"
      (by decide)
  exact ⟨h1, h2, h3, h4, h5 (fun _ => []) (Turn.user "u")⟩

end Agency
